import Mathlib

/-!
Verification of the stonehm documentation-to-OpenAPI compiler.

The definitions below are a shallow embedding of the Rust sources:
`src/lib.rs` (router, path translation, operation/spec assembly) and
`stonehm-macros/src/lib.rs` (doc-comment parser, schema derivation).
Rust `u16` values are modelled as `Nat`; ordered maps (`IndexMap`,
response maps keyed by status code, media-type maps, the `BTreeMap`
schema component table) are modelled as association lists with
insert-or-overwrite semantics; key order of distinct keys is not used
by any theorem below.
-/

namespace Stonehm

/-- One step of the character scan of `convert_path_params` (src/lib.rs).
`none` is the normal mode; `some prev` means the scanner is inside a `:`
parameter and `prev` is the character most recently pushed to the output.
On input exhaustion inside a parameter a closing brace is appended unless
the output already ends in `/` or in a closing brace, mirroring the
`ends_with` fixup after the inner `for` loop in the source. -/
def convertAux : Option Char → List Char → List Char
  | none, [] => []
  | none, c :: cs =>
    if c = ':' then '\x7b' :: convertAux (some '\x7b') cs
    else c :: convertAux none cs
  | some prev, [] => if prev = '/' ∨ prev = '\x7d' then [] else ['\x7d']
  | some _, c :: cs =>
    if c = '/' then '\x7d' :: '/' :: convertAux none cs
    else c :: convertAux (some c) cs

/-- Convert Axum path params (`:id`) to OpenAPI brace format; embeds
`convert_path_params` from src/lib.rs. -/
def convert_path_params (path : String) : String :=
  String.mk (convertAux none path.data)

/-- HTTP methods handled by the documented router (`http::Method` values
that `register_route` matches on). -/
inductive Method
  | GET
  | POST
  | PUT
  | DELETE
  | PATCH
deriving DecidableEq

/-- Embeds `method.as_str()` for the five supported methods. -/
def Method.as_str : Method → String
  | .GET => "GET"
  | .POST => "POST"
  | .PUT => "PUT"
  | .DELETE => "DELETE"
  | .PATCH => "PATCH"

/-- Embeds `method.as_str().to_lowercase()` for the five supported methods. -/
def Method.lowercase : Method → String
  | .GET => "get"
  | .POST => "post"
  | .PUT => "put"
  | .DELETE => "delete"
  | .PATCH => "patch"

/-- Splitting on `/` as done by Rust `str::split('/')`: every separator
starts a new (possibly empty) group. -/
def splitSlash : List Char → List (List Char)
  | [] => [[]]
  | c :: cs =>
    if c = '/' then [] :: splitSlash cs
    else
      match splitSlash cs with
      | [] => [[c]]
      | g :: gs => (c :: g) :: gs

/-- Rust `str::replace(':', "by_")`: every `:` character is replaced by the
three characters `by_`; all other characters are unchanged. -/
def replaceColon : List Char → List Char
  | [] => []
  | c :: cs =>
    if c = ':' then 'b' :: 'y' :: '_' :: replaceColon cs
    else c :: replaceColon cs

/-- Rust `Vec::join("_")` on character-list segments. -/
def intercalateUnderscore : List (List Char) → List Char
  | [] => []
  | [g] => g
  | g :: gs => g ++ '_' :: intercalateUnderscore gs

/-- The operation-id computation of `create_operation_with_params_and_responses`
(src/lib.rs): lowercased method, underscore, non-empty path segments joined
by underscores, then every `:` replaced by `by_`. -/
def operationId (method : Method) (path : String) : String :=
  let path_parts := (splitSlash path.data).filter (fun s => !s.isEmpty)
  method.lowercase ++ "_" ++ String.mk (replaceColon (intercalateUnderscore path_parts))

/-- `stonehm::ParameterDoc`. -/
structure ParameterDoc where
  name : String
  description : String
  param_type : String
deriving DecidableEq

/-- `stonehm::RequestBodyDoc` (router side; carries the inferred schema type). -/
structure RequestBodyDoc where
  description : String
  content_type : String
  schema_type : Option String
deriving DecidableEq

/-- `stonehm::ResponseContent`. The macros crate declares an identical
struct; it is modelled once here. -/
structure ResponseContent where
  media_type : String
  schema : Option String
deriving DecidableEq

/-- `stonehm::ResponseExample` (identical struct in the macros crate). -/
structure ResponseExample where
  name : String
  summary : Option String
  value : String
deriving DecidableEq

/-- `stonehm::ResponseDoc` (identical struct in the macros crate). The
`u16` status code is modelled as `Nat`; the doc parser only produces
values below 65536. -/
structure ResponseDoc where
  status_code : Nat
  description : String
  content : Option ResponseContent
  examples : Option (List ResponseExample)
deriving DecidableEq

/-- An `openapiv3::ReferenceOr<Schema>` as used by the operation builder:
either a `$ref` string, or one of the two inline schemas the builder
constructs (a generic object schema, a plain string schema). -/
inductive SchemaOrRef
  | reference (ref : String)
  | objectSchema
  | stringSchema
deriving DecidableEq

/-- An `openapiv3::Example` as built by the operation builder. The raw
example text is kept as written; the emission-time JSON re-parse of the
value string is a serialization detail not used by any claim. -/
structure ExampleM where
  summary : Option String
  value : String
deriving DecidableEq

/-- An `openapiv3::MediaType` as built by the operation builder. -/
structure MediaTypeM where
  schema : Option SchemaOrRef
  examples : List (String × ExampleM)
deriving DecidableEq

/-- An `openapiv3::Response`. -/
structure ApiResponseM where
  description : String
  content : List (String × MediaTypeM)
deriving DecidableEq

/-- An `openapiv3::Parameter` restricted to the fields the builder sets. -/
structure ParameterM where
  name : String
  description : String
  location : String
  required : Bool
deriving DecidableEq

/-- An `openapiv3::RequestBody`. -/
structure RequestBodyM where
  description : Option String
  content : List (String × MediaTypeM)
  required : Bool
deriving DecidableEq

/-- An `openapiv3::Operation` restricted to the fields the builder sets. -/
structure OperationM where
  operation_id : Option String
  summary : Option String
  description : Option String
  parameters : List ParameterM
  request_body : Option RequestBodyM
  responses : List (Nat × ApiResponseM)
deriving DecidableEq

/-- Ordered-map insert (`IndexMap::insert` / `BTreeMap::insert` observable
behaviour): overwrite the value at an existing key, otherwise add the
binding. -/
def mapInsert {κ α : Type} [DecidableEq κ] : List (κ × α) → κ → α → List (κ × α)
  | [], k, v => [(k, v)]
  | (k', v') :: rest, k, v =>
    if k' = k then (k, v) :: rest else (k', v') :: mapInsert rest k v

/-- Membership test of the association-list map (`contains_key`). -/
def containsKey {κ α : Type} [DecidableEq κ] (m : List (κ × α)) (k : κ) : Bool :=
  m.any (fun e => decide (e.1 = k))

/-- Number of bindings of a key in the association-list map. -/
def countKey {κ α : Type} [DecidableEq κ] (m : List (κ × α)) (k : κ) : Nat :=
  (m.filter (fun e => decide (e.1 = k))).length

/-- The `$ref` string built throughout src/lib.rs. -/
def schemaRefFor (name : String) : SchemaOrRef :=
  .reference ("#/components/schemas/" ++ name)

/-- Parameter construction in `create_operation_with_params_and_responses`:
a query parameter is built first (required iff the location is `path`),
then replaced by a path (always required) or header (never required)
parameter according to the documented location; unrecognized locations
default to query. -/
def buildParameter (p : ParameterDoc) : ParameterM :=
  let param_location :=
    if p.param_type = "path" then "path"
    else if p.param_type = "query" then "query"
    else if p.param_type = "header" then "header"
    else "query"
  if param_location = "path" then ⟨p.name, p.description, "path", true⟩
  else if param_location = "header" then ⟨p.name, p.description, "header", false⟩
  else ⟨p.name, p.description, "query", param_location = "path"⟩

/-- Request-body construction in `create_operation_with_params_and_responses`:
a `$ref` to the inferred schema type when known, otherwise a generic object
schema; the single content entry is keyed by the documented content type and
the body is always required. -/
def buildRequestBody (d : RequestBodyDoc) : RequestBodyM :=
  let schema : SchemaOrRef :=
    match d.schema_type with
    | some t => schemaRefFor t
    | none => .objectSchema
  { description := some d.description
    content := [(d.content_type, ⟨some schema, []⟩)]
    required := true }

/-- The examples map of a media type: `media_type.examples.insert(name, ...)`
per documented example, in order. -/
def exampleMap (es : List ResponseExample) : List (String × ExampleM) :=
  es.foldl (fun acc e => mapInsert acc e.name ⟨e.summary, e.value⟩) []

/-- One documented response turned into an operation response
(the `else` branch of the responses loop in
`create_operation_with_params_and_responses`). -/
def buildDocResponse (response_type : Option String) (d : ResponseDoc) : ApiResponseM :=
  match d.content with
  | some content_info =>
    let schema : SchemaOrRef :=
      match content_info.schema with
      | some schema_name => schemaRefFor schema_name
      | none =>
        if d.status_code = 200 then
          match response_type with
          | some rt => schemaRefFor rt
          | none => .objectSchema
        else .objectSchema
    let exs : List (String × ExampleM) :=
      match d.examples with
      | some es => exampleMap es
      | none => []
    ⟨d.description, [(content_info.media_type, ⟨some schema, exs⟩)]⟩
  | none =>
    if d.status_code = 200 then
      match response_type with
      | some rt => ⟨d.description, [("application/json", ⟨some (schemaRefFor rt), []⟩)]⟩
      | none => ⟨d.description, []⟩
    else ⟨d.description, []⟩

/-- A synthesized error response: description plus an `application/json`
content entry referencing the error schema. -/
def errorResponse (err_type descr : String) : ApiResponseM :=
  ⟨descr, [("application/json", ⟨some (schemaRefFor err_type), []⟩)]⟩

/-- The `common_errors` list of the empty-documentation branch. -/
def commonErrorsEmpty : List (Nat × String) :=
  [(400, "Bad Request"), (500, "Internal Server Error")]

/-- The `common_errors` list of the documented-responses branch. -/
def commonErrorsDocumented : List (Nat × String) :=
  [(400, "Bad Request"), (401, "Unauthorized"), (403, "Forbidden"),
   (404, "Not Found"), (500, "Internal Server Error")]

/-- Rust `path.contains('\x7b')` on the path string handed to the operation
builder (the original route template, before translation). -/
def containsBrace (path : String) : Bool :=
  path.data.any (fun c => decide (c = '\x7b'))

/-- The responses map of `create_operation_with_params_and_responses`.
With no documented responses: one default 200 plus, given an error type,
400/500. With documented responses: one entry per doc (keyed by status
code) plus, given an error type and no documented response with status
`>= 400`, a standard error set with the 404 and 401/403 skip rules of the
source. -/
def buildResponses (path : String) (method : Method)
    (response_type error_type : Option String)
    (response_docs : List ResponseDoc) : List (Nat × ApiResponseM) :=
  if response_docs.isEmpty then
    let success : ApiResponseM :=
      { description := "Successful response"
        content :=
          match response_type with
          | some rt => [("application/json", ⟨some (schemaRefFor rt), []⟩)]
          | none => [] }
    let rs := mapInsert ([] : List (Nat × ApiResponseM)) 200 success
    match error_type with
    | some e => commonErrorsEmpty.foldl (fun acc se => mapInsert acc se.1 (errorResponse e se.2)) rs
    | none => rs
  else
    let rs := response_docs.foldl
      (fun acc d => mapInsert acc d.status_code (buildDocResponse response_type d)) []
    match error_type with
    | some e =>
      let has_manual := response_docs.any (fun r => decide (400 ≤ r.status_code))
      if has_manual then rs
      else
        commonErrorsDocumented.foldl (fun acc se =>
          if se.1 = 404 ∧ method ≠ .GET ∧ containsBrace path = false then acc
          else if (se.1 = 401 ∨ se.1 = 403) ∧ method = .GET then acc
          else mapInsert acc se.1 (errorResponse e se.2)) rs
    | none => rs

/-- Embeds `create_operation_with_params_and_responses` (src/lib.rs). The
path argument is the route template exactly as registered (the caller
`register_route` passes the original, untranslated template). -/
def create_operation_with_params_and_responses
    (path : String) (method : Method)
    (summary description : Option String)
    (parameter_docs : List ParameterDoc)
    (request_body_doc : Option RequestBodyDoc)
    (response_type error_type : Option String)
    (response_docs : List ResponseDoc) : OperationM :=
  { operation_id := some (operationId method path)
    summary := some (summary.getD (method.as_str ++ " " ++ path))
    description := description
    parameters := parameter_docs.map buildParameter
    request_body := request_body_doc.map buildRequestBody
    responses := buildResponses path method response_type error_type response_docs }

/-- Embeds `register_schema_if_available` (src/lib.rs): skip when the type
name is already a key of the component table, otherwise insert the schema
produced by `try_generate_schema`, falling back to a generic empty-object
schema. The schema payload is abstract here. -/
def register_schema_if_available {α : Type} (schemas : List (String × α))
    (type_name : String) (try_generate_schema : String → Option α)
    (fallback : α) : List (String × α) :=
  if containsKey schemas type_name then schemas
  else mapInsert schemas type_name ((try_generate_schema type_name).getD fallback)

/-- Rust `trim_end_matches('/')` on the character list. -/
def dropTrailingSlashes (cs : List Char) : List Char :=
  (cs.reverse.dropWhile (fun c => decide (c = '/'))).reverse

/-- Rust `prefix.trim_end_matches('/')`. -/
def trimEndSlashes (s : String) : String :=
  String.mk (dropTrailingSlashes s.data)

/-- The normalization in `with_openapi_routes_prefix` (src/lib.rs): empty
input stays empty; input already starting with `/` only has its trailing
slashes stripped; otherwise one `/` is prepended after stripping trailing
slashes. -/
def pfxNormalize (p : String) : String :=
  match p.data with
  | [] => ""
  | c :: _ => if c = '/' then trimEndSlashes p else "/" ++ trimEndSlashes p

/-- The serving value used by `with_openapi_routes`. -/
def openapiDefaultPfx : String := "/openapi"

/-- The JSON serving path: `format!("\x7bnormalized_prefix\x7d.json")`. -/
def openapiJsonRoute (p : String) : String := pfxNormalize p ++ ".json"

/-- The YAML serving path. -/
def openapiYamlRoute (p : String) : String := pfxNormalize p ++ ".yaml"

/-- Number of leading `/` characters of a string. -/
def leadingSlashCount (s : String) : Nat :=
  (s.data.takeWhile (fun c => decide (c = '/'))).length

/-- Number of trailing `/` characters of a string. -/
def trailingSlashCount (s : String) : Nat :=
  (s.data.reverse.takeWhile (fun c => decide (c = '/'))).length

end Stonehm

namespace DocExtract

/-- Rust `str::trim` on a character list (both ends, whitespace). -/
def trimChars (cs : List Char) : List Char :=
  ((cs.dropWhile Char.isWhitespace).reverse.dropWhile Char.isWhitespace).reverse

/-- Rust `str::trim_matches('"')` on a character list: all leading and
trailing double quotes are removed. -/
def trimQuotes (cs : List Char) : List Char :=
  ((cs.dropWhile (fun c => decide (c = '"'))).reverse.dropWhile
    (fun c => decide (c = '"'))).reverse

/-- Rust `str::parse::<u16>()`: an optional leading `+`, then one or more
ASCII digits, with the value required to fit in 16 bits. -/
def parseU16 (cs : List Char) : Option Nat :=
  let ds :=
    match cs with
    | '+' :: rest => rest
    | _ => cs
  if ds.isEmpty then none
  else if ds.all Char.isDigit then
    let n := ds.foldl (fun acc c => acc * 10 + (c.toNat - 48)) 0
    if n < 65536 then some n else none
  else none

/-- Rust `Vec::last_mut` mutation: apply `f` to the final element. -/
def modifyLast {α : Type} (f : α → α) : List α → List α
  | [] => []
  | [a] => [f a]
  | a :: rest => a :: modifyLast f rest

/-- Prefix test `line.starts_with(pre)` at the character-list level. -/
def hasPre (pre : String) (line : List Char) : Bool :=
  pre.data.isPrefixOf line

/-- Remainder after a statically known prefix (`strip_prefix` / slicing);
only used after the corresponding `hasPre` test. -/
def dropPre (pre : String) (line : List Char) : List Char :=
  line.drop pre.length

/-- `stonehm_macros::RequestBodyDoc` (parser side: no schema type field). -/
structure RequestBodyDoc where
  description : String
  content_type : String
deriving DecidableEq

/-- `stonehm_macros::ParsedDocs`. The response / parameter doc structs are
identical to the router-side ones and are shared. -/
structure ParsedDocs where
  summary : Option String
  description : Option String
  parameters : List Stonehm.ParameterDoc
  request_body : Option RequestBodyDoc
  responses : List Stonehm.ResponseDoc
deriving DecidableEq

/-- Mutable state of the `extract_docs` loop (stonehm-macros/src/lib.rs). -/
structure ParseState where
  description_lines : List String
  parameters : List Stonehm.ParameterDoc
  request_body : Option RequestBodyDoc
  responses : List Stonehm.ResponseDoc
  current_section : String
deriving DecidableEq

/-- The YAML-like property keys recognized inside an elaborate response. -/
def isRespKeyLine (line : List Char) : Bool :=
  hasPre "description:" line || hasPre "content:" line ||
  hasPre "application/json:" line || hasPre "application/xml:" line ||
  hasPre "text/plain:" line || hasPre "schema:" line ||
  hasPre "examples:" line || hasPre "- name:" line || hasPre "name:" line ||
  hasPre "summary:" line || hasPre "value:" line

/-- Mutation of the most recently opened `ResponseDoc` by one YAML-like
property line, mirroring the `if`/`else if` chain of `extract_docs`. -/
def updateResp (line : List Char) (r : Stonehm.ResponseDoc) : Stonehm.ResponseDoc :=
  if hasPre "description:" line then
    { r with description := String.mk (trimQuotes (trimChars (dropPre "description:" line))) }
  else if hasPre "content:" line then
    match r.content with
    | none => { r with content := some ⟨"application/json", none⟩ }
    | some _ => r
  else if hasPre "application/json:" line ∨ hasPre "application/xml:" line ∨
      hasPre "text/plain:" line then
    let media_type := String.mk (line.takeWhile (fun c => decide (c ≠ ':')))
    match r.content with
    | none => { r with content := some ⟨media_type, none⟩ }
    | some c => { r with content := some ⟨media_type, c.schema⟩ }
  else if hasPre "schema:" line then
    let schema_name := String.mk (trimChars (dropPre "schema:" line))
    match r.content with
    | none => { r with content := some ⟨"application/json", some schema_name⟩ }
    | some c => { r with content := some ⟨c.media_type, some schema_name⟩ }
  else if hasPre "examples:" line then
    match r.examples with
    | none => { r with examples := some [] }
    | some _ => r
  else if hasPre "- name:" line ∨ hasPre "name:" line then
    let nm :=
      if hasPre "- name:" line then trimChars (dropPre "- name:" line)
      else trimChars (dropPre "name:" line)
    let exs := r.examples.getD []
    { r with examples := some (exs ++ [⟨String.mk (trimQuotes nm), none, ""⟩]) }
  else if hasPre "summary:" line then
    match r.examples with
    | some exs =>
      { r with examples := some (modifyLast
          (fun e => { e with
            summary := some (String.mk (trimQuotes (trimChars (dropPre "summary:" line)))) }) exs) }
    | none => r
  else if hasPre "value:" line then
    match r.examples with
    | some exs =>
      { r with examples := some (modifyLast
          (fun e => { e with
            value := String.mk (trimQuotes (trimChars (dropPre "value:" line))) }) exs) }
    | none => r
  else r

/-- Response-section line handling of `extract_docs`: a `- ` / `* ` line
with a leading status code that parses as `u16` opens a new response (with
the text after the colon as description, possibly empty); otherwise a
recognized YAML-like key line mutates the most recently opened response. -/
def pRespLine (st : ParseState) (line : List Char) : ParseState :=
  if hasPre "- " line ∨ hasPre "* " line then
    let response_text := trimChars (line.drop 2)
    match response_text.findIdx? (fun c => decide (c = ':')) with
    | some colon_pos =>
      let status_part := trimChars (response_text.take colon_pos)
      let after_colon := trimChars (response_text.drop (colon_pos + 1))
      match parseU16 status_part with
      | some status_code =>
        { st with responses :=
            st.responses ++ [⟨status_code, String.mk after_colon, none, none⟩] }
      | none => st
    | none => st
  else if st.responses ≠ [] ∧ isRespKeyLine line then
    { st with responses := modifyLast (updateResp line) st.responses }
  else st

/-- Parameters-section line handling of `extract_docs`: list items are
parsed as `name (location): description`; the closing parenthesis is
searched from the start of the item (as in the source) and the colon
after it; incomplete items are dropped. -/
def pParamLine (st : ParseState) (line : List Char) : ParseState :=
  if hasPre "- " line ∨ hasPre "* " line then
    let param_text := trimChars (line.drop 2)
    match param_text.findIdx? (fun c => decide (c = '(')) with
    | some paren_start =>
      match param_text.findIdx? (fun c => decide (c = ')')) with
      | some paren_end =>
        let name := trimChars (param_text.take paren_start)
        let param_type := trimChars ((param_text.take paren_end).drop (paren_start + 1))
        match (param_text.drop paren_end).findIdx? (fun c => decide (c = ':')) with
        | some colon_pos =>
          let descr := trimChars (param_text.drop (paren_end + colon_pos + 1))
          { st with parameters :=
              st.parameters ++ [⟨String.mk name, String.mk descr, String.mk param_type⟩] }
        | none => st
      | none => st
    | none => st
  else st

/-- Request-body-section line handling of `extract_docs`: a `Content-Type:`
line opens (or resets) the body descriptor; later non-empty lines are
space-joined into the description, and lines before any `Content-Type:`
are dropped. -/
def pBodyLine (st : ParseState) (line : List Char) : ParseState :=
  if hasPre "Content-Type:" line then
    { st with request_body := some ⟨"", String.mk (trimChars (dropPre "Content-Type:" line))⟩ }
  else
    match st.request_body with
    | some body =>
      if line ≠ [] then
        let d :=
          if body.description = "" then String.mk line
          else body.description ++ " " ++ String.mk line
        { st with request_body := some ⟨d, body.content_type⟩ }
      else st
    | none => st

/-- One iteration of the `extract_docs` loop for lines after the summary:
section headers switch (or, for unrecognized `#` lines, clear) the current
section; other lines are handled by the current section, defaulting to
description accumulation. -/
def pLine (st : ParseState) (line : List Char) : ParseState :=
  if hasPre "# Parameters" line ∨ hasPre "## Parameters" line then
    { st with current_section := "parameters" }
  else if hasPre "# Request Body" line ∨ hasPre "## Request Body" line then
    { st with current_section := "request_body" }
  else if hasPre "# Responses" line ∨ hasPre "## Responses" line then
    { st with current_section := "responses" }
  else if hasPre "#" line then
    { st with current_section := "" }
  else if st.current_section = "parameters" then pParamLine st line
  else if st.current_section = "request_body" then pBodyLine st line
  else if st.current_section = "responses" then pRespLine st line
  else { st with description_lines := st.description_lines ++ [String.mk line] }

/-- Embeds `extract_docs` (stonehm-macros/src/lib.rs) on the raw doc-comment
line values: lines are trimmed and empty ones removed, the first remaining
line is always the summary, and the rest run through the section machine. -/
def extract_docs (rawLines : List String) : ParsedDocs :=
  let lines := (rawLines.map (fun l => trimChars l.data)).filter (fun l => !l.isEmpty)
  match lines with
  | [] => ⟨none, none, [], none, []⟩
  | l0 :: rest =>
    let st := rest.foldl pLine ⟨[], [], none, [], ""⟩
    { summary := some (String.mk l0)
      description :=
        if st.description_lines.isEmpty then none
        else some (String.intercalate " " st.description_lines)
      parameters := st.parameters
      request_body := st.request_body
      responses := st.responses }

/-- A struct field's declared type as inspected by `derive_stone_schema`:
a `syn::Type::Path` is identified by the identifier of its final segment
(generic arguments are carried but never inspected by the source), and
any non-path type is `other`. -/
inductive FieldType
  | path (ident : String) (args : List FieldType)
  | other

/-- The type-mapping table of `derive_stone_schema`
(stonehm-macros/src/lib.rs, the `type_str` match). -/
def mapTypeStr : FieldType → String
  | .path ident _ =>
    if ident = "String" ∨ ident = "str" then "string"
    else if ident = "i32" ∨ ident = "i64" ∨ ident = "u32" ∨ ident = "u64" ∨
        ident = "isize" ∨ ident = "usize" then "integer"
    else if ident = "f32" ∨ ident = "f64" then "number"
    else if ident = "bool" then "boolean"
    else if ident = "Option" then "string"
    else "object"
  | .other => "string"

/-- The `required` membership test of `derive_stone_schema`: a path type is
required unless its final segment is `Option`; non-path types are always
required. -/
def isRequiredField : FieldType → Bool
  | .path ident _ => decide (ident ≠ "Option")
  | .other => true

/-- The ordered `required` array built by `derive_stone_schema`. -/
def structRequired (fields : List (String × FieldType)) : List String :=
  (fields.filter (fun f => isRequiredField f.2)).map Prod.fst

/-- The ordered `properties` object built by `derive_stone_schema`
(property name paired with its mapped `type` string). -/
def structProperties (fields : List (String × FieldType)) : List (String × String) :=
  fields.map (fun f => (f.1, mapTypeStr f.2))

/-- The content of the JSON schema emitted by `derive_stone_schema`. -/
structure StoneSchemaM where
  type : String
  properties : List (String × String)
  required : List String
deriving DecidableEq

/-- The shape of a `syn::DeriveInput` as far as `derive_stone_schema`
distinguishes it. -/
inductive InputData
  | structNamed (fields : List (String × FieldType))
  | structUnnamed
  | nonStruct

/-- Embeds `derive_stone_schema` (stonehm-macros/src/lib.rs): named-field
structs get an object schema with mapped properties and the required list;
other structs get a bare object schema; non-structs get a bare string
schema. -/
def derive_stone_schema : InputData → StoneSchemaM
  | .structNamed fields => ⟨"object", structProperties fields, structRequired fields⟩
  | .structUnnamed => ⟨"object", [], []⟩
  | .nonStruct => ⟨"string", [], []⟩

end DocExtract

namespace Stonehm

theorem convertAux_no_colon (cs : List Char) (h : ∀ c ∈ cs, c ≠ ':') :
    convertAux none cs = cs := by
  induction cs with
  | nil => rfl
  | cons c cs ih =>
    have hc : c ≠ ':' := h c (List.mem_cons_self c cs)
    simp only [convertAux, if_neg hc]
    exact congrArg (c :: ·) (ih fun d hd => h d (List.mem_cons_of_mem c hd))

theorem takeWhile_dropWhile_nil {α : Type} (p : α → Bool) (l : List α) :
    (l.dropWhile p).takeWhile p = [] := by
  induction l with
  | nil => rfl
  | cons a l ih =>
    cases h : p a
    · simp [List.dropWhile_cons, List.takeWhile_cons, h]
    · simpa [List.dropWhile_cons, h] using ih

theorem dropWhile_concat_ne_nil {α : Type} (p : α → Bool) (a : α) (h : p a = false)
    (l : List α) : (l ++ [a]).dropWhile p ≠ [] := by
  induction l with
  | nil => simp [List.dropWhile_cons, h]
  | cons x l ih =>
    cases hx : p x
    · simp [List.dropWhile_cons, hx]
    · simpa [List.dropWhile_cons, hx] using ih

theorem takeWhile_append_eq_nil {α : Type} (p : α → Bool) (A B : List α)
    (hA : A ≠ []) (h : A.takeWhile p = []) : (A ++ B).takeWhile p = [] := by
  cases A with
  | nil => exact absurd rfl hA
  | cons a A =>
    cases ha : p a
    · simp [List.takeWhile_cons, ha]
    · simp [List.takeWhile_cons, ha] at h

theorem trailingSlashCount_pfxNormalize (p : String) :
    trailingSlashCount (pfxNormalize p) = 0 := by
  rcases hp : p.data with _ | ⟨c, cs⟩
  · simp [pfxNormalize, hp, trailingSlashCount]
  · by_cases hc : c = '/'
    · simp only [pfxNormalize, hp, if_pos hc]
      simp only [trailingSlashCount, trimEndSlashes, dropTrailingSlashes]
      rw [List.reverse_reverse]
      simp [takeWhile_dropWhile_nil]
    · simp only [pfxNormalize, hp, if_neg hc]
      have hdata : (("/" : String) ++ trimEndSlashes p).data =
          '/' :: (dropTrailingSlashes p.data) := rfl
      simp only [trailingSlashCount, hdata, List.reverse_cons]
      simp only [dropTrailingSlashes, List.reverse_reverse]
      have hne : p.data.reverse.dropWhile (fun c => decide (c = '/')) ≠ [] := by
        rw [hp, List.reverse_cons]
        exact dropWhile_concat_ne_nil _ c (by simp [hc]) cs.reverse
      have hnil : (p.data.reverse.dropWhile (fun c => decide (c = '/'))).takeWhile
          (fun c => decide (c = '/')) = [] := takeWhile_dropWhile_nil _ _
      rw [takeWhile_append_eq_nil _ _ _ hne hnil]
      rfl

theorem containsKey_mapInsert_self {κ α : Type} [DecidableEq κ]
    (m : List (κ × α)) (k : κ) (v : α) : containsKey (mapInsert m k v) k = true := by
  induction m with
  | nil => simp [mapInsert, containsKey]
  | cons e m ih =>
    obtain ⟨q, w⟩ := e
    by_cases h : q = k
    · simp [mapInsert, h, containsKey]
    · simpa [mapInsert, h, containsKey] using ih

theorem countKey_eq_zero_containsKey {κ α : Type} [DecidableEq κ]
    (m : List (κ × α)) (k : κ) (h : countKey m k = 0) : containsKey m k = false := by
  induction m with
  | nil => rfl
  | cons e m ih =>
    obtain ⟨q, w⟩ := e
    by_cases hk : q = k
    · simp [countKey, List.filter_cons, hk] at h
    · simp only [countKey, List.filter_cons] at h
      rw [if_neg (by simp [hk])] at h
      simpa [containsKey, hk] using ih h

theorem countKey_mapInsert_of_absent {κ α : Type} [DecidableEq κ]
    (m : List (κ × α)) (k : κ) (v : α) (h : containsKey m k = false) :
    countKey (mapInsert m k v) k = countKey m k + 1 := by
  induction m with
  | nil => simp [mapInsert, countKey]
  | cons e m ih =>
    obtain ⟨q, w⟩ := e
    by_cases hk : q = k
    · simp [containsKey, hk] at h
    · have h' : containsKey m k = false := by simpa [containsKey, hk] using h
      simp only [mapInsert, if_neg hk, countKey, List.filter_cons]
      rw [if_neg (by simp [hk]), if_neg (by simp [hk])]
      exact ih h'

end Stonehm

/-- C6: the Path-Template Translator leaves colon-free templates unchanged
and rewrites each `:name` parameter to a brace-delimited one, preserving a
trailing slash. -/
theorem C6_path_translation :
    (∀ p : String, (∀ c ∈ p.data, c ≠ ':') → Stonehm.convert_path_params p = p) ∧
    Stonehm.convert_path_params "/users/:id" = "/users/\x7bid\x7d" ∧
    Stonehm.convert_path_params "/users/:id/posts/:post_id" =
      "/users/\x7bid\x7d/posts/\x7bpost_id\x7d" ∧
    Stonehm.convert_path_params "/users/:id/" = "/users/\x7bid\x7d/" ∧
    Stonehm.convert_path_params "/static" = "/static" := by
  refine ⟨fun p h => ?_, rfl, rfl, rfl, rfl⟩
  show String.mk (Stonehm.convertAux none p.data) = p
  rw [Stonehm.convertAux_no_colon p.data h]

/-- Witness for C6 at the concrete template `/static`. -/
theorem C6_path_translation_witness :
    Stonehm.convert_path_params "/static" = "/static" :=
  C6_path_translation.1 "/static" (by decide)

/-- C1 counterexample: a GET handler on the parameterless path `/health`
with an inferred error type and only a documented 200 response DOES
receive a synthesized 404 (the 404 skip applies only to non-GET methods),
contradicting the claim's `/health` instantiation. -/
theorem C1_claim_false :
    404 ∈ (Stonehm.create_operation_with_params_and_responses "/health" .GET none none []
        none none (some "ApiError") [⟨200, "OK", none, none⟩]).responses.map Prod.fst ∧
    (Stonehm.create_operation_with_params_and_responses "/health" .GET none none []
        none none (some "ApiError") [⟨200, "OK", none, none⟩]).responses.map Prod.fst =
      [200, 400, 404, 500] := by
  constructor <;> decide

/-- C1 (amended): with an inferred error type and no documented response of
status `>= 400`, the standard error set 400/401/403/404/500 is backfilled,
skipping 404 only when the method is not GET and the path (as registered,
before translation) contains no brace, and skipping 401/403 only for GET.
Hence GET `/health` gets 400, 404 and 500; DELETE `/users/:id` gets
400, 401, 403 and 500 but no 404 (the colon template contains no brace);
DELETE on the brace template does get 404. -/
theorem C1_error_backfill (e d : String) :
    ((Stonehm.create_operation_with_params_and_responses "/health" .GET none none []
        none none (some e) [⟨200, d, none, none⟩]).responses.map Prod.fst =
      [200, 400, 404, 500]) ∧
    ((Stonehm.create_operation_with_params_and_responses "/users/:id" .DELETE none none []
        none none (some e) [⟨200, d, none, none⟩]).responses.map Prod.fst =
      [200, 400, 401, 403, 500]) ∧
    ((Stonehm.create_operation_with_params_and_responses "/users/\x7bid\x7d" .DELETE
        none none [] none none (some e) [⟨200, d, none, none⟩]).responses.map Prod.fst =
      [200, 400, 401, 403, 404, 500]) :=
  ⟨rfl, rfl, rfl⟩

/-- C2 counterexample: a brace-style parameter segment is NOT rendered as
`by_name` in the operation id; only the colon sigil is rewritten. -/
theorem C2_claim_false :
    Stonehm.operationId .GET "/users/\x7bid\x7d" = "get_users_\x7bid\x7d" ∧
    Stonehm.operationId .GET "/users/\x7bid\x7d" ≠ "get_users_by_id" := by
  constructor <;> decide

/-- C2 (amended): the operation id of every built operation is the
lowercased method, an underscore, and the non-empty path segments joined
by underscores with every `:` character replaced by `by_`; colon-style
parameter segments hence become `by_name` while brace-style segments pass
through unchanged. -/
theorem C2_operation_id :
    (∀ (path : String) (method : Stonehm.Method) (s d : Option String)
      (params : List Stonehm.ParameterDoc) (rbd : Option Stonehm.RequestBodyDoc)
      (rt et : Option String) (rds : List Stonehm.ResponseDoc),
      (Stonehm.create_operation_with_params_and_responses path method s d params rbd rt et
        rds).operation_id = some (Stonehm.operationId method path)) ∧
    Stonehm.operationId .GET "/users/:id" = "get_users_by_id" ∧
    Stonehm.operationId .POST "/test" = "post_test" ∧
    Stonehm.operationId .GET "/users/\x7bid\x7d" = "get_users_\x7bid\x7d" ∧
    Stonehm.operationId .DELETE "/users/:user_id" = "delete_users_by_user_id" := by
  refine ⟨fun _ _ _ _ _ _ _ _ _ => rfl, ?_, ?_, ?_, ?_⟩ <;> decide

/-- C3 counterexample: a `u8` field is mapped to `object`, not `integer` —
the fixed table covers only i32/i64/u32/u64/isize/usize. -/
theorem C3_claim_false :
    (DocExtract.derive_stone_schema (.structNamed [("id", .path "u8" [])])).properties =
      [("id", "object")] ∧
    (DocExtract.derive_stone_schema (.structNamed [("id", .path "u8" [])])).properties ≠
      [("id", "integer")] := by
  constructor <;> decide

/-- C3 (amended): the schema synthesizer maps String/str to string,
exactly i32, i64, u32, u64, isize and usize to integer (other integer
widths such as u8, u16, u128, i8, i16, i128 fall through to the `object`
fallback), f32/f64 to number and bool to boolean; the example struct with
u32/String/bool fields gets those mapped types and the required list
[id, name, active] in declaration order. -/
theorem C3_schema_field_mapping :
    DocExtract.mapTypeStr (.path "String" []) = "string" ∧
    DocExtract.mapTypeStr (.path "str" []) = "string" ∧
    DocExtract.mapTypeStr (.path "i32" []) = "integer" ∧
    DocExtract.mapTypeStr (.path "i64" []) = "integer" ∧
    DocExtract.mapTypeStr (.path "u32" []) = "integer" ∧
    DocExtract.mapTypeStr (.path "u64" []) = "integer" ∧
    DocExtract.mapTypeStr (.path "isize" []) = "integer" ∧
    DocExtract.mapTypeStr (.path "usize" []) = "integer" ∧
    DocExtract.mapTypeStr (.path "f32" []) = "number" ∧
    DocExtract.mapTypeStr (.path "f64" []) = "number" ∧
    DocExtract.mapTypeStr (.path "bool" []) = "boolean" ∧
    DocExtract.mapTypeStr (.path "u8" []) = "object" ∧
    DocExtract.mapTypeStr (.path "u16" []) = "object" ∧
    DocExtract.mapTypeStr (.path "u128" []) = "object" ∧
    DocExtract.mapTypeStr (.path "i8" []) = "object" ∧
    DocExtract.mapTypeStr (.path "i16" []) = "object" ∧
    DocExtract.mapTypeStr (.path "i128" []) = "object" ∧
    DocExtract.derive_stone_schema (.structNamed
      [("id", .path "u32" []), ("name", .path "String" []), ("active", .path "bool" [])]) =
      ⟨"object", [("id", "integer"), ("name", "string"), ("active", "boolean")],
        ["id", "name", "active"]⟩ := by
  decide

/-- C4 counterexample: an `Option<u32>` field gets property type `string`,
not the inner type's `integer` — the derive ignores the wrapped type. -/
theorem C4_claim_false :
    DocExtract.mapTypeStr (.path "Option" [.path "u32" []]) = "string" ∧
    DocExtract.mapTypeStr (.path "u32" []) = "integer" ∧
    DocExtract.mapTypeStr (.path "Option" [.path "u32" []]) ≠
      DocExtract.mapTypeStr (.path "u32" []) := by
  refine ⟨rfl, rfl, by decide⟩

/-- C4 (amended): every `Option<...>` field is excluded from the required
list, but its property schema is the fixed `string` type regardless of the
inner type (the source comments this as a simplification). -/
theorem C4_optional_fields :
    (∀ args : List DocExtract.FieldType,
      DocExtract.mapTypeStr (.path "Option" args) = "string" ∧
      DocExtract.isRequiredField (.path "Option" args) = false) ∧
    DocExtract.derive_stone_schema (.structNamed
      [("id", .path "u32" []), ("age", .path "Option" [.path "u32" []])]) =
      ⟨"object", [("id", "integer"), ("age", "string")], ["id"]⟩ :=
  ⟨fun _ => ⟨rfl, rfl⟩, by decide⟩

/-- C5: with no documented responses the operation gets exactly one 200
response described "Successful response" (with an `application/json` `$ref`
to the inferred response type when known), plus — exactly when an error
type was inferred — a 400 "Bad Request" and a 500 "Internal Server Error"
referencing the error schema, and nothing else. -/
theorem C5_default_responses (path : String) (method : Stonehm.Method)
    (s d : Option String) (params : List Stonehm.ParameterDoc)
    (rbd : Option Stonehm.RequestBodyDoc) (rt et : Option String) :
    (Stonehm.create_operation_with_params_and_responses path method s d params rbd rt et
        []).responses =
      (200, { description := "Successful response"
              content :=
                match rt with
                | some t => [("application/json", ⟨some (Stonehm.schemaRefFor t), []⟩)]
                | none => [] }) ::
      (match et with
       | some e => [(400, Stonehm.errorResponse e "Bad Request"),
                    (500, Stonehm.errorResponse e "Internal Server Error")]
       | none => []) := by
  cases rt <;> cases et <;> rfl

/-- C7: the elaborate response block with a 200 status, a description, a
content block, an `application/json` media line and a schema line parses to
exactly one `ResponseDoc` with those fields. -/
theorem C7_elaborate_response_parsing :
    DocExtract.extract_docs
      ["Get user", "# Responses", "- 200:", "  description: Success", "  content:",
       "    application/json:", "      schema: UserResponse"] =
      { summary := some "Get user"
        description := none
        parameters := []
        request_body := none
        responses := [⟨200, "Success", some ⟨"application/json", some "UserResponse"⟩, none⟩] } := by
  decide

/-- C8: schema registration is idempotent and keyed by type name — a name
already present leaves the table unchanged (first synthesis wins),
registering twice equals registering once, and a name absent before ends
up with exactly one entry after a double registration. -/
theorem C8_schema_registration (α : Type) (schemas : List (String × α)) (n : String)
    (g : String → Option α) (fb : α) :
    (Stonehm.containsKey schemas n = true →
      Stonehm.register_schema_if_available schemas n g fb = schemas) ∧
    Stonehm.register_schema_if_available
        (Stonehm.register_schema_if_available schemas n g fb) n g fb =
      Stonehm.register_schema_if_available schemas n g fb ∧
    (Stonehm.countKey schemas n = 0 →
      Stonehm.countKey
        (Stonehm.register_schema_if_available
          (Stonehm.register_schema_if_available schemas n g fb) n g fb) n = 1) := by
  have idem : Stonehm.register_schema_if_available
      (Stonehm.register_schema_if_available schemas n g fb) n g fb =
      Stonehm.register_schema_if_available schemas n g fb := by
    cases h : Stonehm.containsKey schemas n
    · have h' := Stonehm.containsKey_mapInsert_self schemas n ((g n).getD fb)
      simp [Stonehm.register_schema_if_available, h, h']
    · simp [Stonehm.register_schema_if_available, h]
  refine ⟨fun h => by simp [Stonehm.register_schema_if_available, h], idem, fun h0 => ?_⟩
  have hc := Stonehm.countKey_eq_zero_containsKey schemas n h0
  rw [idem]
  simp only [Stonehm.register_schema_if_available, hc, Bool.false_eq_true, if_false]
  rw [Stonehm.countKey_mapInsert_of_absent schemas n _ hc, h0]

/-- Witness for C8 at a concrete one-entry table and at the empty table. -/
theorem C8_schema_registration_witness :
    (Stonehm.containsKey ([("User", 0)] : List (String × Nat)) "User" = true ∧
      Stonehm.register_schema_if_available ([("User", 0)] : List (String × Nat)) "User"
        (fun _ => none) 7 = [("User", 0)]) ∧
    (Stonehm.countKey ([] : List (String × Nat)) "User" = 0 ∧
      Stonehm.countKey
        (Stonehm.register_schema_if_available
          (Stonehm.register_schema_if_available ([] : List (String × Nat)) "User"
            (fun _ => none) 7) "User" (fun _ => none) 7) "User" = 1) :=
  ⟨⟨by decide, (C8_schema_registration Nat [("User", 0)] "User" (fun _ => none) 7).1
      (by decide)⟩,
   ⟨by decide, (C8_schema_registration Nat [] "User" (fun _ => none) 7).2.2 (by decide)⟩⟩

/-- C9 counterexample: a prefix with two leading slashes keeps both — the
normalization only prepends a slash when one is missing, so the result does
not have exactly one leading slash. -/
theorem C9_claim_false :
    Stonehm.pfxNormalize "//api" = "//api" ∧
    Stonehm.leadingSlashCount (Stonehm.pfxNormalize "//api") = 2 ∧
    Stonehm.leadingSlashCount (Stonehm.pfxNormalize "//api") ≠ 1 := by
  refine ⟨by decide, by decide, by decide⟩

/-- C9 (amended): the serving-route normalization strips all trailing
slashes (never leaving a trailing `/`), prepends a single `/` only when the
nonempty input lacks one (extra existing leading slashes are preserved, and
a nonempty all-slash input collapses to the empty string), maps the empty
input to the empty string (yielding bare `.json`/`.yaml` routes), and the
default route uses the `/openapi` value. -/
theorem C9_route_pfx_normalization :
    (∀ p : String, Stonehm.trailingSlashCount (Stonehm.pfxNormalize p) = 0) ∧
    Stonehm.pfxNormalize "" = "" ∧
    Stonehm.openapiDefaultPfx = "/openapi" ∧
    Stonehm.pfxNormalize "api/docs" = "/api/docs" ∧
    Stonehm.pfxNormalize "/api/docs/" = "/api/docs" ∧
    Stonehm.pfxNormalize "//" = "" ∧
    Stonehm.pfxNormalize "//api" = "//api" ∧
    Stonehm.openapiJsonRoute "" = ".json" ∧
    Stonehm.openapiYamlRoute "" = ".yaml" ∧
    Stonehm.openapiJsonRoute Stonehm.openapiDefaultPfx = "/openapi.json" :=
  ⟨Stonehm.trailingSlashCount_pfxNormalize, by decide, rfl, by decide, by decide,
   by decide, by decide, by decide, by decide, by decide⟩

/-- C10: an operation carries a request body exactly when the documentation
has a request-body descriptor; the emitted body is always required, with a
single content entry keyed by the documented content type. -/
theorem C10_request_body (path : String) (method : Stonehm.Method) (s d : Option String)
    (params : List Stonehm.ParameterDoc) (rt et : Option String)
    (rds : List Stonehm.ResponseDoc) (bd : Stonehm.RequestBodyDoc) :
    (Stonehm.create_operation_with_params_and_responses path method s d params (some bd)
        rt et rds).request_body = some (Stonehm.buildRequestBody bd) ∧
    (Stonehm.buildRequestBody bd).required = true ∧
    (Stonehm.buildRequestBody bd).content.map Prod.fst = [bd.content_type] ∧
    (Stonehm.create_operation_with_params_and_responses path method s d params none
        rt et rds).request_body = none :=
  ⟨rfl, rfl, rfl, rfl⟩
